import Mathlib

/-!
Shallow embedding of the A2A execution-lifecycle tracker of this repository:
`src/a2a/agent/executor.py` (class `AgentExecutor`), the status endpoint of
`src/a2a/agent/a2a_server.py` (`A2AServer._status_endpoint`) and the chat
route of `src/a2a/api/chat.py` (`chat_with_agent`).

Modelling conventions:
* `datetime.utcnow()` is modelled by a clock value `now : Nat` passed to each
  operation; claims never compare concrete times, only null-ness.
* `uuid.uuid4()` is modelled by a counter `nextId` carried in the executor
  state; freshness of generated ids (`WF`) stands for uuid uniqueness.
* Python dictionaries with a fixed key set are modelled as structures; a key
  that may be absent becomes an `Option` field (`none` = key absent).
* The store `self.executions` (a Python dict, insertion ordered) is a
  `List (Nat × Record)`; `dict[k] = v` on a fresh key is an append,
  `dict[k].update(...)` maps the entry in place.
* `await self.product_manager.process_message(message)` is an opaque
  collaborator `proc : String → Except String String`: `.ok r` models a
  returned string, `.error e` models a raised exception whose `str(e)` is `e`.
* The `try/except Exception` of `execute` is modelled by running the body
  (`executeBody`, an `Except`) and handling its `.error` case; totality of
  the Lean function `AgentExecutor.execute` mirrors "never raises".
-/

/-- `ExecutionStatus` enum, executor.py lines 20-26. -/
inductive ExecutionStatus where
  | pending
  | running
  | completed
  | cancelled
  | failed
deriving DecidableEq, Repr

/-- `.value` of the Python enum members. -/
def ExecutionStatus.value : ExecutionStatus → String
  | .pending => "pending"
  | .running => "running"
  | .completed => "completed"
  | .cancelled => "cancelled"
  | .failed => "failed"

/-- A request dict as consumed by `execute`: only `"message"` is read
(`request.get("message", "")`); `conversation_id` is carried along by the
chat route. `none` models an absent key. -/
structure Request where
  message : Option String
  conversation_id : Option String
deriving DecidableEq, Repr

/-- The result payload built by `execute` (lines 78-84 on success, lines
107-114 on failure); the failure payload carries the extra `"error"` key,
modelled by `error ≠ none`. -/
structure Payload where
  execution_id : Nat
  response : String
  status : String
  timestamp : Nat
  agent_type : String
  error : Option String
deriving DecidableEq, Repr

/-- One execution record, the dict created at executor.py lines 52-60. -/
structure Record where
  id : Nat
  status : ExecutionStatus
  request : Request
  result : Option Payload
  error : Option String
  start_time : Nat
  end_time : Option Nat
deriving DecidableEq, Repr

/-- The `AgentExecutor` state: the `self.executions` dict (insertion order
kept) plus the uuid source modelled as a counter. -/
structure AgentExecutor where
  executions : List (Nat × Record)
  nextId : Nat
deriving Repr

/-- Dict lookup on the association list (first entry with the key). -/
def lookupList : List (Nat × Record) → Nat → Option Record
  | [], _ => none
  | p :: t, eid => if p.1 = eid then some p.2 else lookupList t eid

/-- `execution_id in self.executions` / `self.executions[execution_id]`. -/
def lookupExec (ex : AgentExecutor) (eid : Nat) : Option Record :=
  lookupList ex.executions eid

/-- `self.executions[eid].update({...})`: apply `f` to the entry keyed `eid`. -/
def updateExec (ex : AgentExecutor) (eid : Nat) (f : Record → Record) :
    AgentExecutor :=
  { ex with
    executions := ex.executions.map fun p => if p.1 = eid then (p.1, f p.2) else p }

/-- Result of one `execute` call: the post state, the returned payload, and
whether the message processor was invoked. -/
structure ExecuteOutcome where
  executor : AgentExecutor
  payload : Payload
  procCalled : Bool

/-- The `try` body of `execute`, lines 68-84: extract the message, raise
`ValueError("Message is required")` if falsy, otherwise call the processor
and build the success payload. Second component: was the processor called. -/
def executeBody (eid : Nat) (req : Request) (proc : String → Except String String)
    (now : Nat) : Except String Payload × Bool :=
  let message := req.message.getD ""
  if message = "" then
    (.error "Message is required", false)
  else
    match proc message with
    | .error e => (.error e, true)
    | .ok response =>
      (.ok { execution_id := eid, response := response, status := "success",
             timestamp := now, agent_type := "product_manager", error := none },
       true)

/-- `AgentExecutor.execute`, executor.py lines 39-114: create the Pending
record, set it Running, run the body; on success store Completed + result and
return the payload, on any exception store Failed + error message and return
the apology-shaped error payload. -/
def AgentExecutor.execute (ex : AgentExecutor) (req : Request)
    (proc : String → Except String String) (now : Nat) : ExecuteOutcome :=
  let eid := ex.nextId
  let ex1 : AgentExecutor :=
    { executions := ex.executions ++
        [(eid, { id := eid, status := .pending, request := req, result := none,
                 error := none, start_time := now, end_time := none })],
      nextId := ex.nextId + 1 }
  let ex2 := updateExec ex1 eid fun r => { r with status := .running }
  match executeBody eid req proc now with
  | (.ok result, called) =>
    { executor := updateExec ex2 eid fun r =>
        { r with status := .completed, result := some result, end_time := some now },
      payload := result,
      procCalled := called }
  | (.error e, called) =>
    let error_msg := "Execution failed: " ++ e
    { executor := updateExec ex2 eid fun r =>
        { r with status := .failed, error := some error_msg, end_time := some now },
      payload :=
        { execution_id := eid,
          response :=
            "I apologize, but I encountered an error processing your request: "
              ++ error_msg,
          status := "error", timestamp := now, agent_type := "product_manager",
          error := some error_msg },
      procCalled := called }

/-- The dict returned by `cancel` and by the not-found branch of
`get_execution_status`: `{execution_id, status, message}`. -/
structure OpResult where
  execution_id : Nat
  status : String
  message : String
deriving DecidableEq, Repr

/-- `AgentExecutor.cancel`, executor.py lines 116-154. -/
def AgentExecutor.cancel (ex : AgentExecutor) (eid : Nat) (now : Nat) :
    AgentExecutor × OpResult :=
  match lookupExec ex eid with
  | none =>
    (ex, { execution_id := eid, status := "error", message := "Execution not found" })
  | some execution =>
    if execution.status = .completed ∨ execution.status = .failed ∨
        execution.status = .cancelled then
      (ex, { execution_id := eid, status := "error",
             message := "Execution already " ++ execution.status.value })
    else
      (updateExec ex eid fun r => { r with status := .cancelled, end_time := some now },
       { execution_id := eid, status := "cancelled",
         message := "Execution cancelled successfully" })

/-- The dict returned by `get_execution_status` (executor.py lines 156-182):
the not-found branch fills `status := "error"` and a `message`; the found
branch projects the record. `none` models an absent key / `None` value. -/
structure StatusSnapshot where
  execution_id : Nat
  status : String
  message : Option String
  start_time : Option Nat
  end_time : Option Nat
  result : Option Payload
  error : Option String
deriving DecidableEq, Repr

/-- `AgentExecutor.get_execution_status`, executor.py lines 156-182.
`start_time` is always a datetime (truthy), so the found branch always
serialises it. -/
def AgentExecutor.get_execution_status (ex : AgentExecutor) (eid : Nat) :
    StatusSnapshot :=
  match lookupExec ex eid with
  | none =>
    { execution_id := eid, status := "error", message := some "Execution not found",
      start_time := none, end_time := none, result := none, error := none }
  | some execution =>
    { execution_id := eid, status := execution.status.value, message := none,
      start_time := some execution.start_time, end_time := execution.end_time,
      result := execution.result, error := execution.error }

/-- One summary dict of `list_executions`, executor.py lines 192-197:
exactly the keys `execution_id`, `status`, `start_time`, `end_time`. -/
structure ExecutionSummary where
  execution_id : Nat
  status : String
  start_time : Option Nat
  end_time : Option Nat
deriving DecidableEq, Repr

/-- `AgentExecutor.list_executions`, executor.py lines 184-199. -/
def AgentExecutor.list_executions (ex : AgentExecutor) : List ExecutionSummary :=
  ex.executions.map fun p =>
    { execution_id := p.1, status := p.2.status.value,
      start_time := some p.2.start_time, end_time := p.2.end_time }

/-- `A2AServer._status_endpoint`, a2a_server.py lines 179-193: HTTP code is
200 unless the snapshot's `status` field is the sentinel `"error"`. -/
def A2AServer.statusEndpointCode (snap : StatusSnapshot) : Nat :=
  if snap.status ≠ "error" then 200 else 404

/-- `ChatRequest` of chat.py lines 30-35 (metadata omitted: never read by the
modelled paths). -/
structure ChatRequest where
  message : String
  session_id : Option String
  conversation_id : Option String
deriving DecidableEq, Repr

/-- `ChatResponse` of chat.py lines 38-43 (metadata omitted). -/
structure ChatResponse where
  response : String
  execution_id : Nat
  status : String
deriving DecidableEq, Repr

/-- `chat_with_agent`, chat.py lines 46-90: build the execution request
(`conversation_id or session_id`, Python falsy-or), run `execute`, then map
the payload into a `ChatResponse`. -/
def chat_with_agent (ex : AgentExecutor) (req : ChatRequest)
    (proc : String → Except String String) (now : Nat) :
    AgentExecutor × ChatResponse :=
  let conv : Option String :=
    match req.conversation_id with
    | some c => if c = "" then req.session_id else some c
    | none => req.session_id
  let execution_request : Request := { message := some req.message, conversation_id := conv }
  let out := ex.execute execution_request proc now
  let response_text :=
    if out.payload.status = "success" then out.payload.response
    else out.payload.error.getD "An error occurred during processing"
  (out.executor,
   { response := response_text,
     execution_id := out.payload.execution_id,
     status := if out.payload.status = "success" then "completed" else out.payload.status })

/-- The four operations a client can issue against the executor; `execOp`
carries the request, the processor behaviour for that call and the clock. -/
inductive AgentOp where
  | execOp (req : Request) (proc : String → Except String String) (now : Nat)
  | cancelOp (eid : Nat) (now : Nat)
  | statusOp (eid : Nat)
  | listOp

/-- State effect of one operation (queries leave the store untouched). -/
def stepOp (ex : AgentExecutor) : AgentOp → AgentExecutor
  | .execOp req proc now => (ex.execute req proc now).executor
  | .cancelOp eid now => (ex.cancel eid now).1
  | .statusOp _ => ex
  | .listOp => ex

/-- Run a sequence of operations. -/
def runOps (ex : AgentExecutor) : List AgentOp → AgentExecutor
  | [] => ex
  | op :: ops => runOps (stepOp ex op) ops

/-- Fresh `AgentExecutor()`: empty store. -/
def initExecutor : AgentExecutor := { executions := [], nextId := 0 }

/-- A store state reachable by some sequence of client operations. -/
def Reachable (ex : AgentExecutor) : Prop :=
  ∃ ops : List AgentOp, runOps initExecutor ops = ex

/-- Well-formedness: stored ids are pairwise distinct and every stored id was
produced by the counter, so the next generated id is fresh (models uuid
uniqueness). -/
def WF (ex : AgentExecutor) : Prop :=
  (ex.executions.map Prod.fst).Nodup ∧ ∀ p ∈ ex.executions, p.1 < ex.nextId

/-- Number of `execute` calls in a trace. -/
def countExecOps (ops : List AgentOp) : Nat :=
  ops.countP fun op => match op with | .execOp .. => true | _ => false


/-- Per-record data invariant (spec section 3): `result` set iff Completed,
`error` set iff Failed, `end_time` null iff Pending or Running. -/
def RecordInv (r : Record) : Prop :=
  ((r.result ≠ none) ↔ r.status = .completed) ∧
  ((r.error ≠ none) ↔ r.status = .failed) ∧
  (r.end_time = none ↔ (r.status = .pending ∨ r.status = .running))

/-- Store invariant: well-formed ids plus the per-record data invariant. -/
def StoreInv (ex : AgentExecutor) : Prop :=
  WF ex ∧ ∀ p ∈ ex.executions, RecordInv p.2

/-! ## Helper lemmas -/

theorem lookupList_map_upd (l : List (Nat × Record)) (G : Nat × Record → Nat × Record)
    (eid : Nat) (f : Record → Record)
    (hG : ∀ p, G p = if p.1 = eid then (p.1, f p.2) else p) :
    lookupList (l.map G) eid = (lookupList l eid).map f := by
  induction l with
  | nil => rfl
  | cons a t ih =>
    by_cases h : a.1 = eid
    · simp [lookupList, hG, h]
    · simp [lookupList, hG, h, ih]

theorem lookupList_map_ne (l : List (Nat × Record)) (G : Nat × Record → Nat × Record)
    (eid : Nat) (f : Record → Record) (eid' : Nat)
    (hG : ∀ p, G p = if p.1 = eid then (p.1, f p.2) else p) (h : eid' ≠ eid) :
    lookupList (l.map G) eid' = lookupList l eid' := by
  induction l with
  | nil => rfl
  | cons a t ih =>
    by_cases ha : a.1 = eid
    · simp [lookupList, hG, ha, Ne.symm h, ih]
    · simp [lookupList, hG, ha, ih]

theorem map_fresh_id (l : List (Nat × Record)) (G : Nat × Record → Nat × Record)
    (eid : Nat) (hne : ∀ p : Nat × Record, p.1 ≠ eid → G p = p)
    (hl : ∀ p ∈ l, p.1 ≠ eid) : l.map G = l := by
  induction l with
  | nil => rfl
  | cons a t ih =>
    rw [List.map_cons, hne a (hl a (List.mem_cons_self a t)),
      ih fun p hp => hl p (List.mem_cons_of_mem a hp)]

theorem map_fresh_append (l : List (Nat × Record)) (G : Nat × Record → Nat × Record)
    (eid : Nat) (r : Record) (r' : Nat × Record)
    (hne : ∀ p : Nat × Record, p.1 ≠ eid → G p = p)
    (hkey : G (eid, r) = r')
    (hl : ∀ p ∈ l, p.1 ≠ eid) :
    List.map G (l ++ [(eid, r)]) = l ++ [r'] := by
  rw [List.map_append, map_fresh_id l G eid hne hl]
  simp [hkey]

theorem lookupList_mem (l : List (Nat × Record)) (eid : Nat) (r : Record)
    (h : lookupList l eid = some r) : (eid, r) ∈ l := by
  induction l with
  | nil => simp [lookupList] at h
  | cons a t ih =>
    obtain ⟨a1, a2⟩ := a
    by_cases ha : a1 = eid
    · simp only [lookupList] at h
      rw [if_pos ha] at h
      injection h with h2
      subst ha; subst h2
      exact List.mem_cons_self _ _
    · simp only [lookupList] at h
      rw [if_neg ha] at h
      exact List.mem_cons_of_mem _ (ih h)

theorem mem_lookupList_nodup (l : List (Nat × Record))
    (hnd : (l.map Prod.fst).Nodup) (eid : Nat) (r : Record)
    (h : (eid, r) ∈ l) : lookupList l eid = some r := by
  induction l with
  | nil => cases h
  | cons a t ih =>
    obtain ⟨a1, a2⟩ := a
    simp only [List.map_cons, List.nodup_cons] at hnd
    rcases List.mem_cons.mp h with heq | hmem
    · injection heq with h1 h2
      subst h1; subst h2
      simp [lookupList]
    · have hkey : eid ∈ t.map Prod.fst := List.mem_map_of_mem Prod.fst hmem
      have hne : a1 ≠ eid := fun he => hnd.1 (he ▸ hkey)
      simp only [lookupList]
      rw [if_neg hne]
      exact ih hnd.2 hmem

theorem WF.fresh {ex : AgentExecutor} (hwf : WF ex) :
    ∀ p ∈ ex.executions, p.1 ≠ ex.nextId :=
  fun p hp => Nat.ne_of_lt (hwf.2 p hp)

/-- Normal form of `execute` when the body succeeds. -/
theorem execute_spec_ok (ex : AgentExecutor) (req : Request)
    (proc : String → Except String String) (now : Nat) (result : Payload)
    (called : Bool) (hwf : WF ex)
    (h : executeBody ex.nextId req proc now = (.ok result, called)) :
    ex.execute req proc now =
      { executor :=
          { executions := ex.executions ++
              [(ex.nextId,
                { id := ex.nextId, status := .completed, request := req,
                  result := some result, error := none, start_time := now,
                  end_time := some now })],
            nextId := ex.nextId + 1 },
        payload := result, procCalled := called } := by
  simp only [AgentExecutor.execute, updateExec, h, List.map_map]
  congr 1
  congr 1
  refine map_fresh_append _ _ ex.nextId _ _ ?_ ?_ (WF.fresh hwf)
  · intro p hp
    simp only [Function.comp_apply]
    rw [if_neg hp, if_neg hp]
  · simp [Function.comp]

/-- Normal form of `execute` when the body raises. -/
theorem execute_spec_err (ex : AgentExecutor) (req : Request)
    (proc : String → Except String String) (now : Nat) (e : String)
    (called : Bool) (hwf : WF ex)
    (h : executeBody ex.nextId req proc now = (.error e, called)) :
    ex.execute req proc now =
      { executor :=
          { executions := ex.executions ++
              [(ex.nextId,
                { id := ex.nextId, status := .failed, request := req,
                  result := none, error := some ("Execution failed: " ++ e),
                  start_time := now, end_time := some now })],
            nextId := ex.nextId + 1 },
        payload :=
          { execution_id := ex.nextId,
            response :=
              "I apologize, but I encountered an error processing your request: "
                ++ ("Execution failed: " ++ e),
            status := "error", timestamp := now, agent_type := "product_manager",
            error := some ("Execution failed: " ++ e) },
        procCalled := called } := by
  simp only [AgentExecutor.execute, updateExec, h, List.map_map]
  congr 1
  congr 1
  refine map_fresh_append _ _ ex.nextId _ _ ?_ ?_ (WF.fresh hwf)
  · intro p hp
    simp only [Function.comp_apply]
    rw [if_neg hp, if_neg hp]
  · simp [Function.comp]

theorem lookupList_append_fresh (l : List (Nat × Record)) (eid : Nat) (r : Record)
    (hl : ∀ p ∈ l, p.1 ≠ eid) :
    lookupList (l ++ [(eid, r)]) eid = some r := by
  induction l with
  | nil => simp [lookupList]
  | cons a t ih =>
    simp only [List.cons_append, lookupList]
    rw [if_neg (hl a (List.mem_cons_self a t))]
    exact ih fun p hp => hl p (List.mem_cons_of_mem a hp)

theorem lookupList_append_of_some (l l' : List (Nat × Record)) (eid : Nat) (r : Record)
    (h : lookupList l eid = some r) :
    lookupList (l ++ l') eid = some r := by
  induction l with
  | nil => simp [lookupList] at h
  | cons a t ih =>
    simp only [List.cons_append, lookupList] at h ⊢
    by_cases ha : a.1 = eid
    · rwa [if_pos ha] at h ⊢
    · rw [if_neg ha] at h ⊢
      exact ih h

theorem lookupExec_updateExec_self (ex : AgentExecutor) (eid : Nat) (f : Record → Record) :
    lookupExec (updateExec ex eid f) eid = (lookupExec ex eid).map f :=
  lookupList_map_upd ex.executions _ eid f fun _ => rfl

theorem lookupExec_updateExec_ne (ex : AgentExecutor) (eid : Nat) (f : Record → Record)
    (eid' : Nat) (h : eid' ≠ eid) :
    lookupExec (updateExec ex eid f) eid' = lookupExec ex eid' :=
  lookupList_map_ne ex.executions _ eid f eid' (fun _ => rfl) h

theorem executeBody_empty (eid : Nat) (req : Request)
    (proc : String → Except String String) (now : Nat)
    (h : req.message.getD "" = "") :
    executeBody eid req proc now = (.error "Message is required", false) := by
  simp [executeBody, h]

theorem executeBody_ok (eid : Nat) (req : Request)
    (proc : String → Except String String) (now : Nat) (m r : String)
    (hm : req.message = some m) (hne : m ≠ "") (hp : proc m = .ok r) :
    executeBody eid req proc now =
      (.ok { execution_id := eid, response := r, status := "success",
             timestamp := now, agent_type := "product_manager", error := none },
       true) := by
  simp [executeBody, hm, hne, hp]

theorem executeBody_procErr (eid : Nat) (req : Request)
    (proc : String → Except String String) (now : Nat) (e : String)
    (hne : req.message.getD "" ≠ "")
    (hp : proc (req.message.getD "") = .error e) :
    executeBody eid req proc now = (.error e, true) := by
  simp [executeBody, hne, hp]

theorem cancel_spec_notfound (ex : AgentExecutor) (eid now : Nat)
    (h : lookupExec ex eid = none) :
    ex.cancel eid now =
      (ex, { execution_id := eid, status := "error",
             message := "Execution not found" }) := by
  simp [AgentExecutor.cancel, h]

theorem cancel_spec_terminal (ex : AgentExecutor) (eid now : Nat) (r : Record)
    (h : lookupExec ex eid = some r)
    (ht : r.status = .completed ∨ r.status = .failed ∨ r.status = .cancelled) :
    ex.cancel eid now =
      (ex, { execution_id := eid, status := "error",
             message := "Execution already " ++ r.status.value }) := by
  simp only [AgentExecutor.cancel, h]
  rw [if_pos ht]

theorem cancel_spec_active (ex : AgentExecutor) (eid now : Nat) (r : Record)
    (h : lookupExec ex eid = some r)
    (ht : r.status = .pending ∨ r.status = .running) :
    ex.cancel eid now =
      (updateExec ex eid fun rc => { rc with status := .cancelled, end_time := some now },
       { execution_id := eid, status := "cancelled",
         message := "Execution cancelled successfully" }) := by
  simp only [AgentExecutor.cancel, h]
  rw [if_neg]
  rcases ht with h1 | h1 <;> rw [h1] <;> intro hc <;>
    rcases hc with h2 | h2 | h2 <;> cases h2

theorem map_fst_upd (l : List (Nat × Record)) (G : Nat × Record → Nat × Record)
    (hfst : ∀ p, (G p).1 = p.1) : (l.map G).map Prod.fst = l.map Prod.fst := by
  induction l with
  | nil => rfl
  | cons a t ih => simp only [List.map_cons, hfst, ih]

theorem storeInv_append (ex : AgentExecutor) (rec : Record) (hinv : StoreInv ex)
    (hrec : RecordInv rec) :
    StoreInv { executions := ex.executions ++ [(ex.nextId, rec)],
               nextId := ex.nextId + 1 } := by
  obtain ⟨⟨hnd, hbnd⟩, hall⟩ := hinv
  refine ⟨⟨?_, ?_⟩, ?_⟩
  · rw [List.map_append]
    rw [List.nodup_append]
    refine ⟨hnd, List.nodup_singleton _, ?_⟩
    intro a ha hb
    rcases List.mem_map.mp ha with ⟨p, hp, rfl⟩
    rcases List.mem_singleton.mp hb with h
    exact absurd (h ▸ hbnd p hp) (lt_irrefl _)
  · intro p hp
    rcases List.mem_append.mp hp with h | h
    · exact Nat.lt_succ_of_lt (hbnd p h)
    · rw [List.mem_singleton.mp h]
      exact Nat.lt_succ_self _
  · intro p hp
    rcases List.mem_append.mp hp with h | h
    · exact hall p h
    · rw [List.mem_singleton.mp h]
      exact hrec

theorem storeInv_step (ex : AgentExecutor) (op : AgentOp) (hinv : StoreInv ex) :
    StoreInv (stepOp ex op) := by
  cases op with
  | execOp req proc now =>
    show StoreInv (ex.execute req proc now).executor
    rcases hb : executeBody ex.nextId req proc now with ⟨exc, called⟩
    cases exc with
    | ok result =>
      rw [execute_spec_ok ex req proc now result called hinv.1 hb]
      exact storeInv_append ex _ hinv (by refine ⟨?_, ?_, ?_⟩ <;> simp)
    | error e =>
      rw [execute_spec_err ex req proc now e called hinv.1 hb]
      exact storeInv_append ex _ hinv (by refine ⟨?_, ?_, ?_⟩ <;> simp)
  | cancelOp eid now =>
    show StoreInv (ex.cancel eid now).1
    rcases hl : lookupExec ex eid with _ | r
    · rw [cancel_spec_notfound ex eid now hl]
      exact hinv
    · by_cases ht : r.status = .completed ∨ r.status = .failed ∨ r.status = .cancelled
      · rw [cancel_spec_terminal ex eid now r hl ht]
        exact hinv
      · have hpr : r.status = .pending ∨ r.status = .running := by
          cases hs : r.status
          · exact Or.inl rfl
          · exact Or.inr rfl
          · exact absurd (Or.inl hs) ht
          · exact absurd (Or.inr (Or.inr hs)) ht
          · exact absurd (Or.inr (Or.inl hs)) ht
        rw [cancel_spec_active ex eid now r hl hpr]
        obtain ⟨⟨hnd, hbnd⟩, hall⟩ := hinv
        refine ⟨⟨?_, ?_⟩, ?_⟩
        · show ((ex.executions.map _).map Prod.fst).Nodup
          rw [map_fst_upd _ _ fun p => by by_cases hpp : p.1 = eid <;> simp [hpp]]
          exact hnd
        · intro p hp
          rcases List.mem_map.mp hp with ⟨q, hq, rfl⟩
          by_cases hqe : q.1 = eid <;> simp only [hqe, if_pos, if_neg, if_true, if_false]
          · simpa [hqe] using hbnd q hq
          · exact hbnd q hq
        · intro p hp
          rcases List.mem_map.mp hp with ⟨q, hq, rfl⟩
          by_cases hqe : q.1 = eid
          · have hlq : lookupList ex.executions eid = some q.2 := by
              have := mem_lookupList_nodup ex.executions hnd q.1 q.2 (by simpa using hq)
              rwa [hqe] at this
            have hqr : q.2 = r := by
              have := hl
              rw [lookupExec] at this
              rw [hlq] at this
              exact Option.some.inj this
            obtain ⟨hr1, hr2, hr3⟩ := hall q hq
            have hres : q.2.result = none := by
              by_contra hc
              have := hr1.mp hc
              rw [hqr] at this
              rw [this] at hpr
              rcases hpr with h | h <;> cases h
            have herr : q.2.error = none := by
              by_contra hc
              have := hr2.mp hc
              rw [hqr] at this
              rw [this] at hpr
              rcases hpr with h | h <;> cases h
            simp only [hqe, if_pos, if_true]
            refine ⟨?_, ?_, ?_⟩ <;> simp [hres, herr]
          · simp only [hqe, if_neg, if_false]
            exact hall q hq
  | statusOp eid => exact hinv
  | listOp => exact hinv

theorem storeInv_runOps (ops : List AgentOp) :
    ∀ ex, StoreInv ex → StoreInv (runOps ex ops) := by
  induction ops with
  | nil => exact fun ex h => h
  | cons op ops ih => exact fun ex h => ih _ (storeInv_step ex op h)

theorem storeInv_init : StoreInv initExecutor := by
  refine ⟨⟨?_, ?_⟩, ?_⟩ <;> simp [initExecutor]

theorem reachable_storeInv (ex : AgentExecutor) (h : Reachable ex) : StoreInv ex := by
  rcases h with ⟨ops, rfl⟩
  exact storeInv_runOps ops _ storeInv_init

theorem terminal_lookup_step (ex : AgentExecutor) (op : AgentOp) (eid : Nat) (r : Record)
    (hinv : StoreInv ex) (hl : lookupExec ex eid = some r)
    (ht : r.status = .completed ∨ r.status = .cancelled ∨ r.status = .failed) :
    lookupExec (stepOp ex op) eid = some r := by
  cases op with
  | execOp req proc now =>
    show lookupExec (ex.execute req proc now).executor eid = some r
    rcases hb : executeBody ex.nextId req proc now with ⟨exc, called⟩
    cases exc with
    | ok result =>
      rw [execute_spec_ok ex req proc now result called hinv.1 hb]
      exact lookupList_append_of_some _ _ _ _ hl
    | error e =>
      rw [execute_spec_err ex req proc now e called hinv.1 hb]
      exact lookupList_append_of_some _ _ _ _ hl
  | cancelOp eidc now =>
    show lookupExec (ex.cancel eidc now).1 eid = some r
    rcases hlc : lookupExec ex eidc with _ | rc
    · rw [cancel_spec_notfound ex eidc now hlc]
      exact hl
    · by_cases htc : rc.status = .completed ∨ rc.status = .failed ∨ rc.status = .cancelled
      · rw [cancel_spec_terminal ex eidc now rc hlc htc]
        exact hl
      · have hpr : rc.status = .pending ∨ rc.status = .running := by
          cases hs : rc.status
          · exact Or.inl rfl
          · exact Or.inr rfl
          · exact absurd (Or.inl hs) htc
          · exact absurd (Or.inr (Or.inr hs)) htc
          · exact absurd (Or.inr (Or.inl hs)) htc
        rw [cancel_spec_active ex eidc now rc hlc hpr]
        by_cases heq : eid = eidc
        · subst heq
          rw [hl] at hlc
          have hrc : rc = r := (Option.some.inj hlc).symm
          subst hrc
          rcases ht with h | h | h
          · exact absurd (Or.inl h) htc
          · exact absurd (Or.inr (Or.inr h)) htc
          · exact absurd (Or.inr (Or.inl h)) htc
        · rw [lookupExec_updateExec_ne ex eidc _ eid heq]
          exact hl
  | statusOp _ => exact hl
  | listOp => exact hl

theorem terminal_lookup_runOps (eid : Nat) (r : Record)
    (ht : r.status = .completed ∨ r.status = .cancelled ∨ r.status = .failed)
    (ops : List AgentOp) :
    ∀ ex, StoreInv ex → lookupExec ex eid = some r →
      lookupExec (runOps ex ops) eid = some r := by
  induction ops with
  | nil => exact fun _ _ hl => hl
  | cons op ops ih =>
    exact fun ex hinv hl =>
      ih _ (storeInv_step ex op hinv) (terminal_lookup_step ex op eid r hinv hl ht)

theorem step_length (ex : AgentExecutor) (op : AgentOp) :
    (stepOp ex op).executions.length =
      ex.executions.length + (match op with | .execOp .. => 1 | _ => 0) := by
  cases op with
  | execOp req proc now =>
    show (ex.execute req proc now).executor.executions.length = _
    rcases hb : executeBody ex.nextId req proc now with ⟨exc, called⟩
    cases exc <;> simp [AgentExecutor.execute, updateExec, hb]
  | cancelOp eid now =>
    show (ex.cancel eid now).1.executions.length = _
    rcases hl : lookupExec ex eid with _ | rc
    · simp [cancel_spec_notfound ex eid now hl]
    · by_cases htc : rc.status = .completed ∨ rc.status = .failed ∨ rc.status = .cancelled
      · simp [cancel_spec_terminal ex eid now rc hl htc]
      · have hpr : rc.status = .pending ∨ rc.status = .running := by
          cases hs : rc.status
          · exact Or.inl rfl
          · exact Or.inr rfl
          · exact absurd (Or.inl hs) htc
          · exact absurd (Or.inr (Or.inr hs)) htc
          · exact absurd (Or.inr (Or.inl hs)) htc
        simp [cancel_spec_active ex eid now rc hl hpr, updateExec]
  | statusOp _ => simp [stepOp]
  | listOp => simp [stepOp]

theorem runOps_length (ops : List AgentOp) :
    ∀ ex, (runOps ex ops).executions.length =
      ex.executions.length + countExecOps ops := by
  induction ops with
  | nil => intro ex; simp [runOps, countExecOps]
  | cons op ops ih =>
    intro ex
    rw [runOps, ih, step_length]
    cases op <;> simp [countExecOps, List.countP_cons]
    all_goals omega

/-! ## Claim theorems -/

/-- C1: for every request and every processor behaviour (returned string or
raised exception), `execute` returns a result (the Lean function is total,
mirroring the catch-all `except`); on any failure — validation error or
processor exception — the execution record is Failed with a human-readable
error message, and the returned payload has status "error" and a response
text containing the error message. -/
theorem execute_failure_converted_to_data (ex : AgentExecutor) (req : Request)
    (proc : String → Except String String) (now : Nat) (e : String)
    (hwf : WF ex)
    (hfail : (req.message.getD "" = "" ∧ e = "Message is required") ∨
             (req.message.getD "" ≠ "" ∧ proc (req.message.getD "") = .error e)) :
    (ex.execute req proc now).payload.execution_id = ex.nextId ∧
    lookupExec (ex.execute req proc now).executor ex.nextId =
      some { id := ex.nextId, status := .failed, request := req, result := none,
             error := some ("Execution failed: " ++ e), start_time := now,
             end_time := some now } ∧
    (ex.execute req proc now).payload.status = "error" ∧
    ∃ pre suf, (ex.execute req proc now).payload.response =
      pre ++ ("Execution failed: " ++ e) ++ suf := by
  have hb : ∃ called, executeBody ex.nextId req proc now = (.error e, called) := by
    rcases hfail with ⟨h1, h2⟩ | ⟨h1, h2⟩
    · exact ⟨false, by rw [h2]; exact executeBody_empty ex.nextId req proc now h1⟩
    · exact ⟨true, executeBody_procErr ex.nextId req proc now e h1 h2⟩
  obtain ⟨called, hb⟩ := hb
  rw [execute_spec_err ex req proc now e called hwf hb]
  refine ⟨rfl, lookupList_append_fresh _ _ _ (WF.fresh hwf), rfl,
    "I apologize, but I encountered an error processing your request: ", "", ?_⟩
  simp

theorem execute_failure_converted_to_data_witness :
    WF initExecutor ∧
    (initExecutor.execute { message := some "hi", conversation_id := none }
        (fun _ => .error "boom") 7).payload.execution_id = initExecutor.nextId ∧
    lookupExec (initExecutor.execute { message := some "hi", conversation_id := none }
        (fun _ => .error "boom") 7).executor initExecutor.nextId =
      some { id := initExecutor.nextId, status := .failed,
             request := { message := some "hi", conversation_id := none },
             result := none, error := some ("Execution failed: " ++ "boom"),
             start_time := 7, end_time := some 7 } ∧
    (initExecutor.execute { message := some "hi", conversation_id := none }
        (fun _ => .error "boom") 7).payload.status = "error" ∧
    ∃ pre suf,
      (initExecutor.execute { message := some "hi", conversation_id := none }
          (fun _ => .error "boom") 7).payload.response =
        pre ++ ("Execution failed: " ++ "boom") ++ suf := by
  refine ⟨storeInv_init.1, ?_⟩
  exact execute_failure_converted_to_data initExecutor
    { message := some "hi", conversation_id := none } (fun _ => .error "boom") 7 "boom"
    storeInv_init.1 (Or.inr ⟨by decide, rfl⟩)

/-- C4: `cancel` on an unknown id returns the "Execution not found" error
result; on a terminal record it returns an error result naming the current
terminal status; on a Pending or Running record it transitions the record to
Cancelled with `end_time` set and returns a success result — and it never
throws (the Lean function is total). -/
theorem cancel_behaviour (ex : AgentExecutor) (eid now : Nat) :
    (lookupExec ex eid = none →
      ex.cancel eid now =
        (ex, { execution_id := eid, status := "error",
               message := "Execution not found" })) ∧
    (∀ r, lookupExec ex eid = some r →
      r.status = .completed ∨ r.status = .failed ∨ r.status = .cancelled →
      ex.cancel eid now =
        (ex, { execution_id := eid, status := "error",
               message := "Execution already " ++ r.status.value })) ∧
    (∀ r, lookupExec ex eid = some r →
      r.status = .pending ∨ r.status = .running →
      (ex.cancel eid now).2 =
        { execution_id := eid, status := "cancelled",
          message := "Execution cancelled successfully" } ∧
      lookupExec (ex.cancel eid now).1 eid =
        some { r with status := .cancelled, end_time := some now } ∧
      (ex.cancel eid now).2.status ≠ "error") := by
  refine ⟨fun h => cancel_spec_notfound ex eid now h,
          fun r h ht => cancel_spec_terminal ex eid now r h ht,
          fun r h ht => ?_⟩
  rw [cancel_spec_active ex eid now r h ht]
  refine ⟨rfl, ?_, ?_⟩
  · rw [lookupExec_updateExec_self, h]
    rfl
  · show ("cancelled" : String) ≠ "error"
    decide

theorem cancel_behaviour_witness :
    (initExecutor.cancel 5 3 =
      (initExecutor, { execution_id := 5, status := "error",
                       message := "Execution not found" })) ∧
    (AgentExecutor.cancel
        { executions :=
            [(0,
              { id := 0, status := .completed,
                request := { message := none, conversation_id := none },
                result := none, error := none, start_time := 0,
                end_time := none })],
          nextId := 1 } 0 3 =
      ({ executions :=
           [(0,
             { id := 0, status := .completed,
               request := { message := none, conversation_id := none },
               result := none, error := none, start_time := 0,
               end_time := none })],
         nextId := 1 },
       { execution_id := 0, status := "error",
         message := "Execution already " ++ ExecutionStatus.completed.value })) ∧
    ((AgentExecutor.cancel
        { executions :=
            [(0,
              { id := 0, status := .pending,
                request := { message := none, conversation_id := none },
                result := none, error := none, start_time := 0,
                end_time := none })],
          nextId := 1 } 0 3).2 =
      { execution_id := 0, status := "cancelled",
        message := "Execution cancelled successfully" } ∧
     lookupExec
       (AgentExecutor.cancel
         { executions :=
             [(0,
               { id := 0, status := .pending,
                 request := { message := none, conversation_id := none },
                 result := none, error := none, start_time := 0,
                 end_time := none })],
           nextId := 1 } 0 3).1 0 =
      some { id := 0, status := .cancelled,
             request := { message := none, conversation_id := none },
             result := none, error := none, start_time := 0,
             end_time := some 3 } ∧
     (AgentExecutor.cancel
        { executions :=
            [(0,
              { id := 0, status := .pending,
                request := { message := none, conversation_id := none },
                result := none, error := none, start_time := 0,
                end_time := none })],
          nextId := 1 } 0 3).2.status ≠ "error") :=
  by
  refine ⟨(cancel_behaviour initExecutor 5 3).1 rfl, ?_, ?_⟩
  · exact (cancel_behaviour
      { executions :=
          [(0,
            { id := 0, status := .completed,
              request := { message := none, conversation_id := none },
              result := none, error := none, start_time := 0,
              end_time := none })],
        nextId := 1 } 0 3).2.1
      { id := 0, status := .completed,
        request := { message := none, conversation_id := none },
        result := none, error := none, start_time := 0, end_time := none }
      rfl (Or.inl rfl)
  · exact (cancel_behaviour
      { executions :=
          [(0,
            { id := 0, status := .pending,
              request := { message := none, conversation_id := none },
              result := none, error := none, start_time := 0,
              end_time := none })],
        nextId := 1 } 0 3).2.2
      { id := 0, status := .pending,
        request := { message := none, conversation_id := none },
        result := none, error := none, start_time := 0, end_time := none }
      rfl (Or.inl rfl)

/-- C5: for a request with a non-empty message, when the processor returns
`r` the payload is exactly `{execution_id, response := r, status := "success",
timestamp, agent_type := "product_manager"}` with no `error` key, and the
record is Completed with `result` equal to that payload. -/
theorem execute_success_payload (ex : AgentExecutor) (req : Request)
    (proc : String → Except String String) (now : Nat) (m r : String)
    (hwf : WF ex) (hm : req.message = some m) (hne : m ≠ "")
    (hp : proc m = .ok r) :
    (ex.execute req proc now).payload =
      { execution_id := ex.nextId, response := r, status := "success",
        timestamp := now, agent_type := "product_manager", error := none } ∧
    lookupExec (ex.execute req proc now).executor ex.nextId =
      some { id := ex.nextId, status := .completed, request := req,
             result := some { execution_id := ex.nextId, response := r,
                              status := "success", timestamp := now,
                              agent_type := "product_manager", error := none },
             error := none, start_time := now, end_time := some now } := by
  rw [execute_spec_ok ex req proc now _ true hwf
    (executeBody_ok ex.nextId req proc now m r hm hne hp)]
  exact ⟨rfl, lookupList_append_fresh _ _ _ (WF.fresh hwf)⟩

theorem execute_success_payload_witness :
    (initExecutor.execute { message := some "hello", conversation_id := none }
        (fun _ => .ok "world") 4).payload =
      { execution_id := 0, response := "world", status := "success",
        timestamp := 4, agent_type := "product_manager", error := none } ∧
    lookupExec (initExecutor.execute { message := some "hello", conversation_id := none }
        (fun _ => .ok "world") 4).executor 0 =
      some { id := 0, status := .completed,
             request := { message := some "hello", conversation_id := none },
             result := some { execution_id := 0, response := "world",
                              status := "success", timestamp := 4,
                              agent_type := "product_manager", error := none },
             error := none, start_time := 4, end_time := some 4 } :=
  execute_success_payload initExecutor
    { message := some "hello", conversation_id := none } (fun _ => .ok "world") 4
    "hello" "world" storeInv_init.1 rfl (by decide) rfl

/-- C6: for a request whose message is missing or empty, `execute` returns an
error payload, the stored record is Failed with an error message mentioning
"required", and the message processor is never invoked. -/
theorem execute_empty_message (ex : AgentExecutor) (req : Request)
    (proc : String → Except String String) (now : Nat)
    (hwf : WF ex) (hm : req.message = none ∨ req.message = some "") :
    (ex.execute req proc now).payload.status = "error" ∧
    (ex.execute req proc now).payload.execution_id = ex.nextId ∧
    lookupExec (ex.execute req proc now).executor ex.nextId =
      some { id := ex.nextId, status := .failed, request := req, result := none,
             error := some "Execution failed: Message is required",
             start_time := now, end_time := some now } ∧
    (∃ pre suf, "Execution failed: Message is required" =
      pre ++ "required" ++ suf) ∧
    (ex.execute req proc now).procCalled = false := by
  have hempty : req.message.getD "" = "" := by rcases hm with h | h <;> simp [h]
  rw [execute_spec_err ex req proc now "Message is required" false hwf
    (executeBody_empty ex.nextId req proc now hempty)]
  exact ⟨rfl, rfl, lookupList_append_fresh _ _ _ (WF.fresh hwf),
    ⟨"Execution failed: Message is ", "", by decide⟩, rfl⟩

theorem execute_empty_message_witness :
    (initExecutor.execute { message := some "", conversation_id := none }
        (fun s => .ok s) 2).payload.status = "error" ∧
    (initExecutor.execute { message := some "", conversation_id := none }
        (fun s => .ok s) 2).payload.execution_id = 0 ∧
    lookupExec (initExecutor.execute { message := some "", conversation_id := none }
        (fun s => .ok s) 2).executor 0 =
      some { id := 0, status := .failed,
             request := { message := some "", conversation_id := none },
             result := none, error := some "Execution failed: Message is required",
             start_time := 2, end_time := some 2 } ∧
    (∃ pre suf, "Execution failed: Message is required" =
      pre ++ "required" ++ suf) ∧
    (initExecutor.execute { message := some "", conversation_id := none }
        (fun s => .ok s) 2).procCalled = false :=
  execute_empty_message initExecutor { message := some "", conversation_id := none }
    (fun s => .ok s) 2 storeInv_init.1 (Or.inr rfl)

/-- C2: in every reachable store state, a record's `result` is non-null iff
its status is Completed and its `error` is non-null iff its status is Failed
(so Cancelled, Pending and Running records have both fields null). -/
theorem store_result_error_iff (ex : AgentExecutor) (hreach : Reachable ex) :
    ∀ p ∈ ex.executions,
      ((p.2.result ≠ none) ↔ p.2.status = .completed) ∧
      ((p.2.error ≠ none) ↔ p.2.status = .failed) := by
  intro p hp
  obtain ⟨h1, h2, _⟩ := (reachable_storeInv ex hreach).2 p hp
  exact ⟨h1, h2⟩

theorem store_result_error_iff_witness :
    Reachable (runOps initExecutor
      [.execOp { message := some "hi", conversation_id := none }
        (fun _ => .ok "ok") 0]) ∧
    (((some { execution_id := 0, response := "ok", status := "success",
              timestamp := 0, agent_type := "product_manager", error := none }
        : Option Payload) ≠ none) ↔
      ExecutionStatus.completed = ExecutionStatus.completed) ∧
    (((none : Option String) ≠ none) ↔
      ExecutionStatus.completed = ExecutionStatus.failed) := by
  refine ⟨⟨_, rfl⟩, ?_⟩
  exact store_result_error_iff
    (runOps initExecutor
      [.execOp { message := some "hi", conversation_id := none }
        (fun _ => .ok "ok") 0])
    ⟨_, rfl⟩
    (0,
     { id := 0, status := .completed,
       request := { message := some "hi", conversation_id := none },
       result := some { execution_id := 0, response := "ok", status := "success",
                        timestamp := 0, agent_type := "product_manager",
                        error := none },
       error := none, start_time := 0, end_time := some 0 })
    (List.mem_singleton.mpr rfl)

/-- C3: once a record is terminal (Completed, Cancelled or Failed) in a
reachable store state, no further sequence of operations changes any field of
that record. -/
theorem terminal_records_immutable (ex : AgentExecutor) (hreach : Reachable ex)
    (eid : Nat) (r : Record) (hl : lookupExec ex eid = some r)
    (ht : r.status = .completed ∨ r.status = .cancelled ∨ r.status = .failed) :
    ∀ ops : List AgentOp, lookupExec (runOps ex ops) eid = some r :=
  fun ops => terminal_lookup_runOps eid r ht ops ex (reachable_storeInv ex hreach) hl

theorem terminal_records_immutable_witness :
    Reachable (runOps initExecutor
      [.execOp { message := some "hi", conversation_id := none }
        (fun _ => .ok "ok") 0]) ∧
    lookupExec
      (runOps
        (runOps initExecutor
          [.execOp { message := some "hi", conversation_id := none }
            (fun _ => .ok "ok") 0])
        [.cancelOp 0 5, .statusOp 0]) 0 =
      some { id := 0, status := .completed,
             request := { message := some "hi", conversation_id := none },
             result := some { execution_id := 0, response := "ok",
                              status := "success", timestamp := 0,
                              agent_type := "product_manager", error := none },
             error := none, start_time := 0, end_time := some 0 } := by
  refine ⟨⟨_, rfl⟩, ?_⟩
  exact terminal_records_immutable
    (runOps initExecutor
      [.execOp { message := some "hi", conversation_id := none }
        (fun _ => .ok "ok") 0])
    ⟨_, rfl⟩ 0
    { id := 0, status := .completed,
      request := { message := some "hi", conversation_id := none },
      result := some { execution_id := 0, response := "ok", status := "success",
                       timestamp := 0, agent_type := "product_manager",
                       error := none },
      error := none, start_time := 0, end_time := some 0 }
    rfl (Or.inl rfl) [.cancelOp 0 5, .statusOp 0]

/-- C7: in every reachable store state a record's `end_time` is null iff its
status is Pending or Running, and the snapshot that `get_execution_status`
returns for a known id reflects this. -/
theorem end_time_null_iff (ex : AgentExecutor) (hreach : Reachable ex) :
    (∀ p ∈ ex.executions,
      (p.2.end_time = none ↔ (p.2.status = .pending ∨ p.2.status = .running))) ∧
    (∀ eid r, lookupExec ex eid = some r →
      ((ex.get_execution_status eid).end_time = none ↔
        ((ex.get_execution_status eid).status = "pending" ∨
         (ex.get_execution_status eid).status = "running"))) := by
  have hinv := reachable_storeInv ex hreach
  refine ⟨fun p hp => (hinv.2 p hp).2.2, fun eid r hl => ?_⟩
  have hrec := (hinv.2 (eid, r) (lookupList_mem ex.executions eid r hl)).2.2
  unfold AgentExecutor.get_execution_status
  rw [hl]
  show r.end_time = none ↔ (r.status.value = "pending" ∨ r.status.value = "running")
  constructor
  · intro h
    rcases hrec.mp h with h1 | h1 <;> rw [h1] <;> simp [ExecutionStatus.value]
  · intro h
    apply hrec.mpr
    rcases h with h | h
    · left
      cases hs : r.status
      · rfl
      all_goals rw [hs] at h
      all_goals exact absurd h (by decide)
    · right
      cases hs : r.status
      case running => rfl
      all_goals rw [hs] at h
      all_goals exact absurd h (by decide)

theorem end_time_null_iff_witness :
    Reachable (runOps initExecutor
      [.execOp { message := some "hi", conversation_id := none }
        (fun _ => .ok "ok") 0]) ∧
    ((some 0 : Option Nat) = none ↔
      (ExecutionStatus.completed = .pending ∨ ExecutionStatus.completed = .running)) ∧
    (((runOps initExecutor
        [.execOp { message := some "hi", conversation_id := none }
          (fun _ => .ok "ok") 0]).get_execution_status 0).end_time = none ↔
      (((runOps initExecutor
          [.execOp { message := some "hi", conversation_id := none }
            (fun _ => .ok "ok") 0]).get_execution_status 0).status = "pending" ∨
       ((runOps initExecutor
          [.execOp { message := some "hi", conversation_id := none }
            (fun _ => .ok "ok") 0]).get_execution_status 0).status = "running")) := by
  refine ⟨⟨_, rfl⟩, ?_, ?_⟩
  · exact (end_time_null_iff
      (runOps initExecutor
        [.execOp { message := some "hi", conversation_id := none }
          (fun _ => .ok "ok") 0]) ⟨_, rfl⟩).1
      (0,
       { id := 0, status := .completed,
         request := { message := some "hi", conversation_id := none },
         result := some { execution_id := 0, response := "ok", status := "success",
                          timestamp := 0, agent_type := "product_manager",
                          error := none },
         error := none, start_time := 0, end_time := some 0 })
      (List.mem_singleton.mpr rfl)
  · exact (end_time_null_iff
      (runOps initExecutor
        [.execOp { message := some "hi", conversation_id := none }
          (fun _ => .ok "ok") 0]) ⟨_, rfl⟩).2 0
      { id := 0, status := .completed,
        request := { message := some "hi", conversation_id := none },
        result := some { execution_id := 0, response := "ok", status := "success",
                         timestamp := 0, agent_type := "product_manager",
                         error := none },
        error := none, start_time := 0, end_time := some 0 }
      rfl

/-- C8: after any operation sequence, `list_executions` returns one summary
per `execute` call (cancellations remove nothing), each summary carries only
execution_id, status, start_time and end_time (projected from the record, no
result/error payload), and the two query operations do not modify the
store. -/
theorem list_executions_count :
    (∀ ops : List AgentOp,
      ((runOps initExecutor ops).list_executions).length = countExecOps ops) ∧
    (∀ (ex : AgentExecutor) (eid : Nat), stepOp ex (.statusOp eid) = ex) ∧
    (∀ ex : AgentExecutor, stepOp ex .listOp = ex) ∧
    (∀ (ex : AgentExecutor) (s : ExecutionSummary), s ∈ ex.list_executions →
      ∃ p ∈ ex.executions,
        s = { execution_id := p.1, status := p.2.status.value,
              start_time := some p.2.start_time, end_time := p.2.end_time }) := by
  refine ⟨fun ops => ?_, fun _ _ => rfl, fun _ => rfl, fun ex s hs => ?_⟩
  · show (List.map _ _).length = _
    rw [List.length_map, runOps_length ops initExecutor]
    simp [initExecutor]
  · simp only [AgentExecutor.list_executions] at hs
    rcases List.mem_map.mp hs with ⟨p, hp, rfl⟩
    exact ⟨p, hp, rfl⟩

theorem list_executions_count_witness :
    ((runOps initExecutor
      [.execOp { message := some "hi", conversation_id := none }
        (fun _ => .ok "ok") 0,
       .cancelOp 0 1, .statusOp 0]).list_executions).length =
      countExecOps
        [.execOp { message := some "hi", conversation_id := none }
          (fun _ => .ok "ok") 0,
         .cancelOp 0 1, .statusOp 0] ∧
    ∃ p ∈ (AgentExecutor.mk
        [(0,
          { id := 0, status := .pending,
            request := { message := none, conversation_id := none },
            result := none, error := none, start_time := 0,
            end_time := none })] 1).executions,
      ({ execution_id := 0, status := "pending", start_time := some 0,
         end_time := none } : ExecutionSummary) =
        { execution_id := p.1, status := p.2.status.value,
          start_time := some p.2.start_time, end_time := p.2.end_time } := by
  constructor
  · exact list_executions_count.1
      [.execOp { message := some "hi", conversation_id := none }
        (fun _ => .ok "ok") 0,
       .cancelOp 0 1, .statusOp 0]
  · exact list_executions_count.2.2.2
      (AgentExecutor.mk
        [(0,
          { id := 0, status := .pending,
            request := { message := none, conversation_id := none },
            result := none, error := none, start_time := 0,
            end_time := none })] 1)
      { execution_id := 0, status := "pending", start_time := some 0,
        end_time := none }
      (List.mem_singleton.mpr rfl)

/-- C9: the status endpoint returns 404 exactly when the id is unknown; for
every stored record the snapshot's status field is the enum's value, one of
the five lifecycle strings, never the sentinel "error", so known ids always
get 200. -/
theorem status_endpoint_404_iff (ex : AgentExecutor) (eid : Nat) :
    (A2AServer.statusEndpointCode (ex.get_execution_status eid) = 404 ↔
      lookupExec ex eid = none) ∧
    (∀ r, lookupExec ex eid = some r →
      (ex.get_execution_status eid).status = r.status.value ∧
      A2AServer.statusEndpointCode (ex.get_execution_status eid) = 200) := by
  rcases hl : lookupExec ex eid with _ | r
  · refine ⟨?_, ?_⟩
    · unfold AgentExecutor.get_execution_status
      rw [hl]
      simp [A2AServer.statusEndpointCode]
    · intro r hr
      exact Option.noConfusion hr
  · have hv : r.status.value ≠ "error" := by
      cases r.status <;> decide
    refine ⟨?_, ?_⟩
    · unfold AgentExecutor.get_execution_status
      rw [hl]
      simp [A2AServer.statusEndpointCode, hv]
    · intro r' hr'
      injection hr' with hrr
      subst hrr
      refine ⟨?_, ?_⟩
      · unfold AgentExecutor.get_execution_status
        rw [hl]
      · unfold AgentExecutor.get_execution_status
        rw [hl]
        simp [A2AServer.statusEndpointCode, hv]

theorem status_endpoint_404_iff_witness :
    (A2AServer.statusEndpointCode (initExecutor.get_execution_status 9) = 404 ↔
      lookupExec initExecutor 9 = none) ∧
    ((AgentExecutor.mk
        [(0,
          { id := 0, status := .completed,
            request := { message := none, conversation_id := none },
            result := none, error := none, start_time := 0,
            end_time := some 1 })] 1).get_execution_status 0).status =
      ExecutionStatus.completed.value ∧
    A2AServer.statusEndpointCode
      ((AgentExecutor.mk
        [(0,
          { id := 0, status := .completed,
            request := { message := none, conversation_id := none },
            result := none, error := none, start_time := 0,
            end_time := some 1 })] 1).get_execution_status 0) = 200 := by
  refine ⟨(status_endpoint_404_iff initExecutor 9).1, ?_⟩
  exact (status_endpoint_404_iff
    (AgentExecutor.mk
      [(0,
        { id := 0, status := .completed,
          request := { message := none, conversation_id := none },
          result := none, error := none, start_time := 0,
          end_time := some 1 })] 1) 0).2
    { id := 0, status := .completed,
      request := { message := none, conversation_id := none },
      result := none, error := none, start_time := 0, end_time := some 1 }
    rfl

/-- `chat_with_agent` is `execute` on the request it builds, whose message
key is always present and equal to the chat message. -/
theorem chat_with_agent_eq (ex : AgentExecutor) (req : ChatRequest)
    (proc : String → Except String String) (now : Nat) :
    ∃ ereq : Request, ereq.message = some req.message ∧
      chat_with_agent ex req proc now =
        ((ex.execute ereq proc now).executor,
         { response :=
             if (ex.execute ereq proc now).payload.status = "success"
             then (ex.execute ereq proc now).payload.response
             else (ex.execute ereq proc now).payload.error.getD
               "An error occurred during processing",
           execution_id := (ex.execute ereq proc now).payload.execution_id,
           status :=
             if (ex.execute ereq proc now).payload.status = "success"
             then "completed" else (ex.execute ereq proc now).payload.status }) :=
  ⟨{ message := some req.message,
     conversation_id :=
       match req.conversation_id with
       | some c => if c = "" then req.session_id else some c
       | none => req.session_id },
   rfl, rfl⟩

/-- C10: for a chat request, on processor success the chat response text is
the processor's text and the chat status is "completed"; on any executor
failure the chat status is "error" and the chat response text is the record's
raw error message — not the apology-shaped response text the executor's
payload carries (for any request with the same message). -/
theorem chat_error_response (ex : AgentExecutor) (req : ChatRequest)
    (proc : String → Except String String) (now : Nat) (hwf : WF ex) :
    (∀ r, req.message ≠ "" → proc req.message = .ok r →
      (chat_with_agent ex req proc now).2.response = r ∧
      (chat_with_agent ex req proc now).2.status = "completed") ∧
    (∀ e, (req.message = "" ∧ e = "Message is required") ∨
          (req.message ≠ "" ∧ proc req.message = .error e) →
      (chat_with_agent ex req proc now).2.status = "error" ∧
      (chat_with_agent ex req proc now).2.response = "Execution failed: " ++ e ∧
      (∃ rec, lookupExec (chat_with_agent ex req proc now).1 ex.nextId = some rec ∧
        rec.error = some ((chat_with_agent ex req proc now).2.response)) ∧
      (∀ ereq : Request, ereq.message = some req.message →
        (ex.execute ereq proc now).payload.response ≠
          (chat_with_agent ex req proc now).2.response)) := by
  obtain ⟨ereq, hm, heq⟩ := chat_with_agent_eq ex req proc now
  rw [heq]
  constructor
  · intro r hne hp
    rw [execute_spec_ok ex ereq proc now _ true hwf
      (executeBody_ok ex.nextId ereq proc now req.message r hm hne hp)]
    constructor <;> simp
  · intro e hfail
    have hbgen : ∀ q : Request, q.message = some req.message →
        ∃ c, executeBody ex.nextId q proc now = (.error e, c) := by
      intro q hq
      rcases hfail with ⟨h1, h2⟩ | ⟨h1, h2⟩
      · refine ⟨false, ?_⟩
        rw [h2]
        exact executeBody_empty _ _ _ _ (by rw [hq, h1]; rfl)
      · refine ⟨true, executeBody_procErr _ _ _ _ e ?_ ?_⟩
        · rw [hq]
          simpa using h1
        · rw [hq]
          simpa using h2
    obtain ⟨called, hb⟩ := hbgen ereq hm
    rw [execute_spec_err ex ereq proc now e called hwf hb]
    refine ⟨by simp, by simp, ?_, ?_⟩
    · refine ⟨_, lookupList_append_fresh _ _ _ (WF.fresh hwf), ?_⟩
      simp
    · intro ereq' hm'
      obtain ⟨called', hb'⟩ := hbgen ereq' hm'
      rw [execute_spec_err ex ereq' proc now e called' hwf hb']
      intro hcontra
      have hlen := congrArg String.length hcontra
      simp [String.length_append] at hlen
      exact absurd hlen (by decide)

theorem chat_error_response_witness :
    ((chat_with_agent initExecutor
        { message := "hi", session_id := none, conversation_id := none }
        (fun _ => .ok "yes") 3).2.response = "yes" ∧
     (chat_with_agent initExecutor
        { message := "hi", session_id := none, conversation_id := none }
        (fun _ => .ok "yes") 3).2.status = "completed") ∧
    ((chat_with_agent initExecutor
        { message := "hi", session_id := none, conversation_id := none }
        (fun _ => .error "boom") 3).2.status = "error" ∧
     (chat_with_agent initExecutor
        { message := "hi", session_id := none, conversation_id := none }
        (fun _ => .error "boom") 3).2.response = "Execution failed: " ++ "boom" ∧
     (∃ rec, lookupExec (chat_with_agent initExecutor
          { message := "hi", session_id := none, conversation_id := none }
          (fun _ => .error "boom") 3).1 0 = some rec ∧
        rec.error = some ((chat_with_agent initExecutor
          { message := "hi", session_id := none, conversation_id := none }
          (fun _ => .error "boom") 3).2.response)) ∧
     (∀ ereq : Request, ereq.message = some "hi" →
        (initExecutor.execute ereq (fun _ => .error "boom") 3).payload.response ≠
          (chat_with_agent initExecutor
            { message := "hi", session_id := none, conversation_id := none }
            (fun _ => .error "boom") 3).2.response)) := by
  constructor
  · exact (chat_error_response initExecutor
      { message := "hi", session_id := none, conversation_id := none }
      (fun _ => .ok "yes") 3 storeInv_init.1).1 "yes" (by decide) rfl
  · exact (chat_error_response initExecutor
      { message := "hi", session_id := none, conversation_id := none }
      (fun _ => .error "boom") 3 storeInv_init.1).2 "boom"
      (Or.inr ⟨by decide, rfl⟩)
